import Mathlib

/-!
Verification of the `directory-compare` repository (`file-db.py`).

The development shallowly embeds the data model and operations of the
source: SHA-256 hashing (`hashlib.sha256` / `hashlib.file_digest`), the
`TreeNode` digest chain fold with its memoizing future, the
`FileNode` / `DirectoryNode` constructors and `DirectoryNode.compare`,
the completion barrier of `main`, and `TreeNode.report`.
-/

/-! ## SHA-256 (model of `hashlib.sha256(...).hexdigest()`)

Bytes are `Nat`s below 256, 32-bit words are `Nat`s below `2^32`; every
word-level operation reduces modulo `2^32` where overflow can occur.
-/

/-- 32-bit rotate right. -/
def rotr (x n : Nat) : Nat := ((x >>> n) ||| (x <<< (32 - n))) % 4294967296

/-- 32-bit addition. -/
def add32 (a b : Nat) : Nat := (a + b) % 4294967296

/-- SHA-256 big sigma 0. -/
def bSig0 (x : Nat) : Nat := (rotr x 2) ^^^ (rotr x 13) ^^^ (rotr x 22)

/-- SHA-256 big sigma 1. -/
def bSig1 (x : Nat) : Nat := (rotr x 6) ^^^ (rotr x 11) ^^^ (rotr x 25)

/-- SHA-256 small sigma 0. -/
def sSig0 (x : Nat) : Nat := (rotr x 7) ^^^ (rotr x 18) ^^^ (x >>> 3)

/-- SHA-256 small sigma 1. -/
def sSig1 (x : Nat) : Nat := (rotr x 17) ^^^ (rotr x 19) ^^^ (x >>> 10)

/-- SHA-256 choice function; `x ^^^ 0xffffffff` is 32-bit complement. -/
def chf (x y z : Nat) : Nat := (x &&& y) ^^^ ((x ^^^ 4294967295) &&& z)

/-- SHA-256 majority function. -/
def majf (x y z : Nat) : Nat := (x &&& y) ^^^ (x &&& z) ^^^ (y &&& z)

/-- The 64 SHA-256 round constants (FIPS 180-4, written in decimal). -/
def sha256K : List Nat :=
  [1116352408, 1899447441, 3049323471, 3921009573, 961987163,
   1508970993, 2453635748, 2870763221, 3624381080, 310598401,
   607225278, 1426881987, 1925078388, 2162078206, 2614888103,
   3248222580, 3835390401, 4022224774, 264347078, 604807628,
   770255983, 1249150122, 1555081692, 1996064986, 2554220882,
   2821834349, 2952996808, 3210313671, 3336571891, 3584528711,
   113926993, 338241895, 666307205, 773529912, 1294757372,
   1396182291, 1695183700, 1986661051, 2177026350, 2456956037,
   2730485921, 2820302411, 3259730800, 3345764771, 3516065817,
   3600352804, 4094571909, 275423344, 430227734, 506948616,
   659060556, 883997877, 958139571, 1322822218, 1537002063,
   1747873779, 1955562222, 2024104815, 2227730452, 2361852424,
   2428436474, 2756734187, 3204031479, 3329325298]

/-- The SHA-256 initial hash value (FIPS 180-4, written in decimal). -/
def sha256H0 : List Nat :=
  [1779033703, 3144134277, 1013904242, 2773480762, 1359893119,
   2600822924, 528734635, 1541459225]

/-- Big-endian 8-byte encoding of a (64-bit) natural number. -/
def bytesBE64 (n : Nat) : List Nat :=
  [(n >>> 56) % 256, (n >>> 48) % 256, (n >>> 40) % 256, (n >>> 32) % 256,
   (n >>> 24) % 256, (n >>> 16) % 256, (n >>> 8) % 256, n % 256]

/-- SHA-256 message padding: append `0x80`, zeros to 56 mod 64, then the
bit length as 8 bytes big-endian. -/
def padMsg (msg : List Nat) : List Nat :=
  let L := msg.length
  msg ++ [0x80] ++ List.replicate ((119 - L % 64) % 64) 0 ++ bytesBE64 (L * 8)

/-- Group bytes four at a time into big-endian 32-bit words. -/
def toWords : List Nat → List Nat
  | b0 :: b1 :: b2 :: b3 :: rest => (((b0 * 256 + b1) * 256 + b2) * 256 + b3) :: toWords rest
  | _ => []

/-- One extension step of the SHA-256 message schedule. -/
def scheduleStep (w : List Nat) : List Nat :=
  let L := w.length
  w ++ [add32 (add32 (sSig1 (w.getD (L - 2) 0)) (w.getD (L - 7) 0))
              (add32 (sSig0 (w.getD (L - 15) 0)) (w.getD (L - 16) 0))]

/-- Extend the 16-word schedule by `k` further words. -/
def schedule (w : List Nat) : Nat → List Nat
  | 0 => w
  | k + 1 => schedule (scheduleStep w) k

/-- One SHA-256 compression round acting on the 8-word working state. -/
def compressStep (st : List Nat) (kw : Nat × Nat) : List Nat :=
  match st with
  | [a, b, c, d, e, f, g, h] =>
    let t1 := add32 h (add32 (bSig1 e) (add32 (chf e f g) (add32 kw.1 kw.2)))
    let t2 := add32 (bSig0 a) (majf a b c)
    [add32 t1 t2, a, b, c, add32 d t1, e, f, g]
  | s => s

/-- Compress a single 64-byte block into the running hash value. -/
def compressBlock (h : List Nat) (block : List Nat) : List Nat :=
  let w := schedule (toWords block) 48
  let st := (sha256K.zip w).foldl compressStep h
  (h.zip st).map (fun p => add32 p.1 p.2)

/-- Split a byte list into 64-byte chunks (structural recursion on a
length bound, so that the kernel can evaluate it). -/
def chunks64Aux : Nat → List Nat → List (List Nat)
  | 0, _ => []
  | _, [] => []
  | fuel + 1, l => l.take 64 :: chunks64Aux fuel (l.drop 64)

/-- Split a byte list into 64-byte chunks. -/
def chunks64 (l : List Nat) : List (List Nat) := chunks64Aux l.length l

/-- SHA-256 of a byte list, as the eight 32-bit words of the final state. -/
def sha256Words (msg : List Nat) : List Nat :=
  (chunks64 (padMsg msg)).foldl compressBlock sha256H0

/-- Big-endian 4-byte encoding of a 32-bit word. -/
def bytesBE32 (n : Nat) : List Nat :=
  [(n >>> 24) % 256, (n >>> 16) % 256, (n >>> 8) % 256, n % 256]

/-- Lower-case hex character for a value below 16. -/
def hexChar (n : Nat) : Char := if n < 10 then Char.ofNat (48 + n) else Char.ofNat (87 + n)

/-- Two-character lower-case hex encoding of one byte. -/
def byteHex (b : Nat) : List Char := [hexChar (b / 16), hexChar (b % 16)]

/-- Lower-case hex encoding of a byte list. -/
def bytesToHex (bs : List Nat) : String := String.mk (bs.flatMap byteHex)

/-- `hashlib.sha256(msg).hexdigest()`: SHA-256 of a byte string, as a
64-character lower-case hex string. -/
def sha256hex (msg : List Nat) : String :=
  bytesToHex ((sha256Words msg).flatMap bytesBE32)

/-! ## Strings, paths and the chain fold -/

/-- UTF-8 bytes of a string (`s.encode('utf-8')`); the strings hashed by
the chain fold are hex digests and the empty seed, which are pure ASCII,
so the code-point list is exactly the UTF-8 byte list. -/
def strBytes (s : String) : List Nat := s.data.map Char.toNat

/-- One step of the directory chain fold, from `TreeNode.digest`
(file-db.py line 119):
`lambda a, b: hashlib.sha256(str(a + b).encode('utf-8')).hexdigest()`. -/
def chainStep (a b : String) : String := sha256hex (strBytes (a ++ b))

/-- The directory chain fold, from `TreeNode.digest` (file-db.py
line 119): `functools.reduce(chainStep, all_digests, '')`. -/
def chainFold (ds : List String) : String := ds.foldl chainStep ""

/-- `os.path.join(a, b)` for POSIX paths. -/
def pathJoin (a b : String) : String :=
  if b.data.head? = some '/' then b
  else if a = "" ∨ b = "" then a ++ b
  else if a.data.getLast? = some '/' then a ++ b
  else a ++ "/" ++ b

/-- Code-point-lexicographic comparison of character lists: the order
Python's `<` uses on `str`.  `charListLeb as bs = true` iff `as` is not
lexicographically greater than `bs`. -/
def charListLeb : List Char → List Char → Bool
  | [], _ => true
  | _ :: _, [] => false
  | c :: cs, d :: ds =>
    if c.toNat < d.toNat then true
    else if d.toNat < c.toNat then false
    else charListLeb cs ds

/-- Boolean code-point-lexicographic `≤` on strings. -/
def strLeb (a b : String) : Bool := charListLeb a.data b.data

/-- Propositional code-point-lexicographic `≤` on strings. -/
def strLe (a b : String) : Prop := strLeb a b = true

/-- Insert a string into a lexicographically sorted list. -/
def insertStr (x : String) : List String → List String
  | [] => [x]
  | y :: ys => if strLeb x y then x :: y :: ys else y :: insertStr x ys

/-- Python's `list.sort` on strings: the code-point-lexicographic sort.
String comparison is a linear order, so every comparison sort returns
the same list; insertion sort is the model. -/
def sortStrings (l : List String) : List String := l.foldr insertStr []

/-- `hashlib.file_digest(fd, 'sha256').hexdigest()` on the file at
`path`, given the file system `fs` mapping a path to the raw byte
contents of the file (`none` = the file cannot be opened or read, which
raises inside the task). This is `get_digest` of file-db.py. -/
def get_digest (fs : String → Option (List Nat)) (path : String) : Option String :=
  (fs path).map sha256hex

/-! ## The `TreeNode` model

`TreeNode.__init__` (file-db.py lines 82-102) stores `name` and
`is_dir`; for a directory it joins each child name onto `name` and
sorts the two lists; for a file it leaves the child lists unset (`None`,
modelled as `[]` — they are never read for files).  The memoized digest
future `_digest` lives in the resolution state `DigestSt` below, keyed
by the node's key in `tree`, since the walk registers one node object
per path. -/

structure TreeNode where
  name : String
  is_dir : Bool
  sub_dirs : List String
  files : List String
deriving DecidableEq, Repr

/-- The body of `TreeNode.__init__`.  Note there is no path validation:
unlike `FileNode.__init__` and `DirectoryNode.__init__`, the constructor
never raises on an empty name. -/
def mkTreeNode (name : String) (sub_dirs : List String) (files : List String)
    (is_dir : Bool) : TreeNode :=
  if is_dir then
    { name := name, is_dir := true
      sub_dirs := sortStrings (sub_dirs.map (pathJoin name))
      files := sortStrings (files.map (pathJoin name)) }
  else
    { name := name, is_dir := false, sub_dirs := [], files := [] }

/-- `TreeNode.__init__` as a fallible call, the way Python constructors
can raise: the source contains no validation branch, so construction
always returns normally. -/
def treeNodeInit (name : String) (sub_dirs : List String) (files : List String)
    (is_dir : Bool) : Option TreeNode :=
  some (mkTreeNode name sub_dirs files is_dir)

/-- Association-list lookup, the model of Python `dict` indexing
(`none` = `KeyError`). -/
def alookup {α : Type} (k : String) : List (String × α) → Option α
  | [] => none
  | (k', v) :: rest => if k = k' then some v else alookup k rest

/-- The digest-resolution state: `memo` holds the resolved directory
futures (`TreeNode._digest` after `set_result`), keyed by tree key;
`folds` records, newest first, the keys whose chain fold has executed
(one entry appended per executed `functools.reduce`).  `folds` is ghost
bookkeeping used to state the resolve-once property. -/
structure DigestSt where
  memo : List (String × String)
  folds : List String
deriving DecidableEq, Repr

mutual

/-- `TreeNode.digest` (file-db.py lines 110-124), with explicit state
and fuel bounding the recursion depth (`none` = `KeyError` on a missing
child, a failed file task re-raised by `result()`, or `RecursionError`
when the fuel runs out).  A directory whose future is already done
returns its memoized result; otherwise the digests of `sub_dirs` then
`files` are resolved through `tree` and chain-folded from the empty
seed, and the result is memoized.  A file node returns the digest of
its contents. -/
def digestS (tree : List (String × TreeNode)) (fs : String → Option (List Nat)) :
    Nat → String → DigestSt → Option (String × DigestSt)
  | 0, _, _ => none
  | fuel + 1, nm, st =>
    match alookup nm tree with
    | none => none
    | some n =>
      if n.is_dir then
        match alookup nm st.memo with
        | some d => some (d, st)
        | none =>
          match digestListS tree fs fuel (n.sub_dirs ++ n.files) st with
          | none => none
          | some (ds, st1) =>
            let d := chainFold ds
            some (d, ⟨(nm, d) :: st1.memo, nm :: st1.folds⟩)
      else
        match get_digest fs n.name with
        | none => none
        | some d => some (d, st)

/-- Resolve the digests of a list of child paths left to right,
threading the state: the evaluation order of
`itertools.chain(sub_dir_node_digests, file_node_digests)` inside the
reduce of `TreeNode.digest`. -/
def digestListS (tree : List (String × TreeNode)) (fs : String → Option (List Nat)) :
    Nat → List String → DigestSt → Option (List String × DigestSt)
  | 0, _, _ => none
  | _ + 1, [], st => some ([], st)
  | fuel + 1, c :: cs, st =>
    match digestS tree fs fuel c st with
    | none => none
    | some (d, st1) =>
      match digestListS tree fs fuel cs st1 with
      | none => none
      | some (ds, st2) => some (d :: ds, st2)

end


/-! ## `FileNode` and `DirectoryNode` -/

/-- A constructed `FileNode` (file-db.py lines 35-53): the validated
path.  The submitted hashing task and its completion callback are
modelled by the barrier section below. -/
structure FileNode where
  path : String
deriving DecidableEq, Repr

/-- `FileNode.__init__` (file-db.py lines 37-44): raises when the path
argument is `None` or the empty string, otherwise returns the node.
The argument is `Option String` so that a missing (`None`) path is
representable. -/
def mkFileNode : Option String → Option FileNode
  | none => none
  | some p => if p = "" then none else some ⟨p⟩

/-- A constructed `DirectoryNode` (file-db.py lines 56-78): the
validated path and the set `paths` of immediate-child full paths
(`self.paths`, a Python `set` updated by `add_file`/`add_directory`). -/
structure DirectoryNode where
  path : String
  paths : Finset String
deriving DecidableEq

/-- `DirectoryNode.__init__` (file-db.py lines 57-63): raises when the
path argument is `None` or the empty string, otherwise returns a node
with an empty `paths` set. -/
def mkDirectoryNode : Option String → Option DirectoryNode
  | none => none
  | some p => if p = "" then none else some ⟨p, ∅⟩

/-- `DirectoryNode.add_file` (file-db.py lines 65-67): records the
file's path among the immediate-child paths. -/
def DirectoryNode.add_file (d : DirectoryNode) (file : FileNode) : DirectoryNode :=
  { d with paths := insert file.path d.paths }

/-- `DirectoryNode.add_directory` (file-db.py lines 69-71). -/
def DirectoryNode.add_directory (d : DirectoryNode) (dir : DirectoryNode) : DirectoryNode :=
  { d with paths := insert dir.path d.paths }

/-- Python's `/` on two machine integers: `ZeroDivisionError` (`none`)
when the divisor is zero, otherwise the exact quotient (modelled in
`ℚ`). -/
def pyDiv (m n : Nat) : Option ℚ :=
  if n = 0 then none else some ((m : ℚ) / (n : ℚ))

/-- `DirectoryNode.compare` (file-db.py lines 73-78):
`len(set.intersection(self.paths, other.paths)) / len(self.paths)`. -/
def DirectoryNode.compare (a b : DirectoryNode) : Option ℚ :=
  pyDiv ((a.paths ∩ b.paths).card) a.paths.card

/-! ## The completion barrier of `main`

`main` (file-db.py lines 157-181) collects one future per constructed
file node in the global list `futures`; each future's completion
callback calls `_add_to_digests(f.result())` (lines 43 and 46-50),
which inserts the node into the dict `digests` keyed by the digest hex
string — and for a failed task, `f.result()` raises inside the
callback, so nothing is inserted.  The barrier then loops
`while len(digests) < len(futures)`.

A leaf task is modelled as a pair of the node's path and its state:
`none` = still pending, `some none` = resolved with an error,
`some (some d)` = resolved with digest `d`. -/

/-- One leaf-hash task: path, and `none` (pending), `some none`
(failed) or `some (some digest)` (succeeded). -/
abbrev LeafTask := String × Option (Option String)

/-- `FileNode._add_to_digests` (file-db.py lines 46-50): insert the
node under its digest key, creating the singleton set for a new key
(sets are modelled as duplicate-free lists). -/
def addToDigests (idx : List (String × List String)) (d : String) (node : String) :
    List (String × List String) :=
  match idx with
  | [] => [(d, [node])]
  | (k, s) :: rest =>
    if k = d then (k, if node ∈ s then s else s ++ [node]) :: rest
    else (k, s) :: addToDigests rest d node

/-- The `digests` dict after the completion callbacks of all resolved
tasks have run: a successful task inserts its node under its digest
key; a failed task's callback raises at `f.result()` and inserts
nothing; a pending task has not called back yet. -/
def runCallbacks (tasks : List LeafTask) : List (String × List String) :=
  tasks.foldl
    (fun idx t =>
      match t.2 with
      | some (some d) => addToDigests idx d t.1
      | _ => idx) []

/-- Whether every submitted leaf task has resolved, successfully or
with an error. -/
def allResolved (tasks : List LeafTask) : Bool := tasks.all (fun t => t.2.isSome)

/-- The exit condition of the barrier loop
`while len(digests) < len(futures)` (file-db.py line 176): the loop
exits exactly when `len(digests) < len(futures)` is false. -/
def barrierExits (tasks : List LeafTask) : Bool :=
  !((runCallbacks tasks).length < tasks.length : Bool)

/-! ## `TreeNode.report`

`report` (file-db.py lines 126-138) looks up the visited node's digest
cluster in `digests`, copies it, sorts it with `list.sort`, and adds
the tuple to the global set `dupe_groups`; for a directory it then
recurses into `sub_dirs` and `files`.  Sorting calls `TreeNode.__lt__`
(line 146-147), which evaluates `self.name < other.path` — and the
`TreeNode` class defines no attribute `path` (its attributes are
`tree`, `name`, `is_dir`, `sub_dirs`, `files`, `digest_executor` and
`_digest`), so the attribute access raises `AttributeError`. -/

/-- Attribute access `node.path` on a `TreeNode`: always an
`AttributeError`, because `TreeNode.__init__` never assigns `path`. -/
def treeNodePathAttr (_ : TreeNode) : Option String := none

/-- `TreeNode.__lt__` (file-db.py lines 146-147):
`self.name < other.path`, which raises because `other.path` is an
`AttributeError` when `other` is a `TreeNode`. -/
def treeNodeLt (a b : TreeNode) : Option Bool :=
  (treeNodePathAttr b).map (fun p => decide (a.name < p))

/-- Insert into a sorted list using the fallible `TreeNode.__lt__`;
any raising comparison aborts the sort. -/
def insertNodeLt (x : TreeNode) : List TreeNode → Option (List TreeNode)
  | [] => some [x]
  | y :: ys =>
    match treeNodeLt x y with
    | none => none
    | some true => some (x :: y :: ys)
    | some false => (insertNodeLt x ys).map (y :: ·)

/-- `list.sort` over `TreeNode`s: performs no comparison on lists of at
most one element, and otherwise compares via `TreeNode.__lt__`; since
every comparison between two `TreeNode`s raises, any list with two or
more elements raises `AttributeError`. -/
def sortNodes : List TreeNode → Option (List TreeNode)
  | [] => some []
  | x :: xs => (sortNodes xs).bind (insertNodeLt x)

/-- `dupe_groups.add(dupes)` (file-db.py line 132): set insertion,
ignored when an equal group is already present. -/
def addGroup (groups : List (List TreeNode)) (g : List TreeNode) : List (List TreeNode) :=
  if g ∈ groups then groups else groups ++ [g]

mutual

/-- `TreeNode.report` (file-db.py lines 126-138) with explicit state:
`dg` maps a node name to its (already resolved) digest, `digidx` is the
`digests` dict mapping a digest to its cluster of nodes, `groups` is
the global `dupe_groups`.  `none` models a raised exception: a
`KeyError`, or the `AttributeError` raised by sorting a cluster of two
or more nodes. -/
def reportS (tree : List (String × TreeNode)) (dg : String → Option String)
    (digidx : List (String × List TreeNode)) :
    Nat → String → List (List TreeNode) → Option (List (List TreeNode))
  | 0, _, _ => none
  | fuel + 1, nm, groups =>
    match alookup nm tree with
    | none => none
    | some n =>
      match dg n.name with
      | none => none
      | some d =>
        match alookup d digidx with
        | none => none
        | some dupes =>
          match sortNodes dupes with
          | none => none
          | some sorted =>
            let groups1 := addGroup groups sorted
            if n.is_dir then
              reportListS tree dg digidx fuel (n.sub_dirs ++ n.files) groups1
            else
              some groups1

/-- Report each child in order, threading the accumulated groups: the
two `for` loops at file-db.py lines 134-138, `sub_dirs` then `files`. -/
def reportListS (tree : List (String × TreeNode)) (dg : String → Option String)
    (digidx : List (String × List TreeNode)) :
    Nat → List String → List (List TreeNode) → Option (List (List TreeNode))
  | 0, _, _ => none
  | _ + 1, [], groups => some groups
  | fuel + 1, c :: cs, groups =>
    match reportS tree dg digidx fuel c groups with
    | none => none
    | some groups1 => reportListS tree dg digidx fuel cs groups1

end

/-! ## Helper lemmas about `digestS` -/

theorem alookup_cons_self {α : Type} {k : String} {v : α} {rest : List (String × α)} :
    alookup k ((k, v) :: rest) = some v := by
  simp [alookup]

theorem alookup_cons_ne {α : Type} {k k' : String} {v : α} {rest : List (String × α)}
    (h : k ≠ k') : alookup k ((k', v) :: rest) = alookup k rest := by
  simp [alookup, h]

theorem alookup_mem {α : Type} {k : String} {v : α} :
    ∀ {l : List (String × α)}, alookup k l = some v → (k, v) ∈ l
  | [], h => by simp [alookup] at h
  | (k', v') :: rest, h => by
    by_cases hk : k = k'
    · subst hk
      rw [alookup_cons_self] at h
      obtain rfl : v' = v := Option.some.inj h
      exact List.mem_cons_self _ _
    · rw [alookup_cons_ne hk] at h
      exact List.mem_cons_of_mem _ (alookup_mem h)

/-- A resolved directory future (`self._digest.done()`): `digest()`
returns the memoized result and changes nothing. -/
theorem digestS_dir_hit {tree : List (String × TreeNode)} {fs : String → Option (List Nat)}
    {fuel : Nat} {nm : String} {st : DigestSt} {n : TreeNode} {d : String}
    (hn : alookup nm tree = some n) (hd : n.is_dir = true)
    (hm : alookup nm st.memo = some d) :
    digestS tree fs (fuel + 1) nm st = some (d, st) := by
  simp [digestS, hn, hd, hm]

/-- An unresolved directory: `digest()` chain-folds the children's
digests and memoizes the result. -/
theorem digestS_dir_miss {tree : List (String × TreeNode)} {fs : String → Option (List Nat)}
    {fuel : Nat} {nm : String} {st : DigestSt} {n : TreeNode} {ds : List String}
    {st1 : DigestSt}
    (hn : alookup nm tree = some n) (hd : n.is_dir = true)
    (hm : alookup nm st.memo = none)
    (hc : digestListS tree fs fuel (n.sub_dirs ++ n.files) st = some (ds, st1)) :
    digestS tree fs (fuel + 1) nm st =
      some (chainFold ds, ⟨(nm, chainFold ds) :: st1.memo, nm :: st1.folds⟩) := by
  simp [digestS, hn, hd, hm, hc]

/-- A file node: `digest()` returns the resolved hash of the file's
contents and changes nothing. -/
theorem digestS_file {tree : List (String × TreeNode)} {fs : String → Option (List Nat)}
    {fuel : Nat} {nm : String} {st : DigestSt} {n : TreeNode} {d : String}
    (hn : alookup nm tree = some n) (hd : n.is_dir = false)
    (hg : get_digest fs n.name = some d) :
    digestS tree fs (fuel + 1) nm st = some (d, st) := by
  simp [digestS, hn, hd, hg]

/-- Inversion: every successful `digest()` call is a memo hit on a
directory, a fresh directory fold, or a file-hash read. -/
theorem digestS_succ_inv {tree : List (String × TreeNode)} {fs : String → Option (List Nat)}
    {fuel : Nat} {nm : String} {st : DigestSt} {d : String} {st' : DigestSt}
    (h : digestS tree fs (fuel + 1) nm st = some (d, st')) :
    ∃ n, alookup nm tree = some n ∧
      ((n.is_dir = true ∧
         ((alookup nm st.memo = some d ∧ st' = st) ∨
          (alookup nm st.memo = none ∧ ∃ ds st1,
            digestListS tree fs fuel (n.sub_dirs ++ n.files) st = some (ds, st1) ∧
            d = chainFold ds ∧ st' = ⟨(nm, d) :: st1.memo, nm :: st1.folds⟩))) ∨
       (n.is_dir = false ∧ get_digest fs n.name = some d ∧ st' = st)) := by
  cases hn : alookup nm tree with
  | none => simp [digestS, hn] at h
  | some n =>
    refine ⟨n, rfl, ?_⟩
    by_cases hd : n.is_dir = true
    · cases hm : alookup nm st.memo with
      | some v =>
        rw [digestS_dir_hit hn hd hm, Option.some.injEq, Prod.mk.injEq] at h
        obtain ⟨rfl, rfl⟩ := h
        exact Or.inl ⟨hd, Or.inl ⟨rfl, rfl⟩⟩
      | none =>
        cases hc : digestListS tree fs fuel (n.sub_dirs ++ n.files) st with
        | none => simp [digestS, hn, hd, hm, hc] at h
        | some p =>
          obtain ⟨ds, st1⟩ := p
          rw [digestS_dir_miss hn hd hm hc, Option.some.injEq, Prod.mk.injEq] at h
          obtain ⟨rfl, rfl⟩ := h
          exact Or.inl ⟨hd, Or.inr ⟨rfl, ds, st1, rfl, rfl, rfl⟩⟩
    · have hd' : n.is_dir = false := by
        cases hb : n.is_dir
        · rfl
        · exact absurd hb hd
      cases hg : get_digest fs n.name with
      | none => simp [digestS, hn, hd', hg] at h
      | some v =>
        rw [digestS_file hn hd' hg, Option.some.injEq, Prod.mk.injEq] at h
        obtain ⟨rfl, rfl⟩ := h
        exact Or.inr ⟨hd', rfl, rfl⟩

theorem digestListS_nil_inv {tree : List (String × TreeNode)} {fs : String → Option (List Nat)}
    {fuel : Nat} {st : DigestSt} {ds : List String} {st' : DigestSt}
    (h : digestListS tree fs (fuel + 1) [] st = some (ds, st')) : ds = [] ∧ st' = st := by
  rw [show digestListS tree fs (fuel + 1) [] st = some ([], st) from by simp [digestListS],
    Option.some.injEq, Prod.mk.injEq] at h
  exact ⟨h.1.symm, h.2.symm⟩

theorem digestListS_cons_inv {tree : List (String × TreeNode)} {fs : String → Option (List Nat)}
    {fuel : Nat} {c : String} {cs : List String} {st : DigestSt} {ds : List String}
    {st' : DigestSt}
    (h : digestListS tree fs (fuel + 1) (c :: cs) st = some (ds, st')) :
    ∃ d st1 ds', digestS tree fs fuel c st = some (d, st1) ∧
      digestListS tree fs fuel cs st1 = some (ds', st') ∧ ds = d :: ds' := by
  cases h1 : digestS tree fs fuel c st with
  | none => simp [digestListS, h1] at h
  | some p =>
    obtain ⟨d, st1⟩ := p
    cases h2 : digestListS tree fs fuel cs st1 with
    | none => simp [digestListS, h1, h2] at h
    | some q =>
      obtain ⟨ds', st2⟩ := q
      rw [show digestListS tree fs (fuel + 1) (c :: cs) st = some (d :: ds', st2) from by
          simp [digestListS, h1, h2],
        Option.some.injEq, Prod.mk.injEq] at h
      obtain ⟨rfl, rfl⟩ := h
      exact ⟨d, st1, ds', rfl, h2, rfl⟩

/-- The tree registry is acyclic, witnessed by a rank function that
strictly decreases from a node's key to each of its child paths.  The
registries built by the top-down `os.walk` in `main` are of this shape
(children are strictly longer paths); a cyclic registry makes
`TreeNode.digest` recurse forever (`RecursionError`). -/
def TreeAcyclic (rank : String → Nat) (tree : List (String × TreeNode)) : Prop :=
  ∀ p ∈ tree, ∀ c ∈ p.2.sub_dirs ++ p.2.files, rank c < rank p.1

/-- Frame lemma: a successful `digest()` call on key `nm` never touches
the fold record or the memo entry of any key of strictly larger rank —
in particular not of any ancestor of `nm`. -/
theorem digest_rank_frame (tree : List (String × TreeNode)) (fs : String → Option (List Nat))
    (rank : String → Nat) (hr : TreeAcyclic rank tree) :
    ∀ fuel : Nat,
      (∀ nm st d st', digestS tree fs fuel nm st = some (d, st') →
        ∀ m, rank nm < rank m →
          st'.folds.count m = st.folds.count m ∧ alookup m st'.memo = alookup m st.memo) ∧
      (∀ cs st ds st', digestListS tree fs fuel cs st = some (ds, st') →
        ∀ m, (∀ c ∈ cs, rank c < rank m) →
          st'.folds.count m = st.folds.count m ∧ alookup m st'.memo = alookup m st.memo) := by
  intro fuel
  induction fuel with
  | zero =>
    constructor
    · intro nm st d st' h
      simp [digestS] at h
    · intro cs st ds st' h
      simp [digestListS] at h
  | succ fuel ih =>
    obtain ⟨ihS, ihL⟩ := ih
    constructor
    · intro nm st d st' h m hrank
      obtain ⟨n, hn, hcase⟩ := digestS_succ_inv h
      rcases hcase with ⟨_, ⟨_, rfl⟩ | ⟨_, ds, st1, hc, _, rfl⟩⟩ | ⟨_, _, rfl⟩
      · exact ⟨rfl, rfl⟩
      · have hne : m ≠ nm := by
          intro e
          rw [e] at hrank
          exact absurd hrank (lt_irrefl _)
        have hch : ∀ c ∈ n.sub_dirs ++ n.files, rank c < rank m :=
          fun c hcm => lt_trans (hr (nm, n) (alookup_mem hn) c hcm) hrank
        obtain ⟨hcount, hmemo⟩ := ihL _ _ _ _ hc m hch
        refine ⟨?_, ?_⟩
        · show (nm :: st1.folds).count m = st.folds.count m
          rw [List.count_cons_of_ne hne, hcount]
        · show alookup m ((nm, d) :: st1.memo) = alookup m st.memo
          rw [alookup_cons_ne hne, hmemo]
      · exact ⟨rfl, rfl⟩
    · intro cs st ds st' h m hall
      cases cs with
      | nil =>
        obtain ⟨_, rfl⟩ := digestListS_nil_inv h
        exact ⟨rfl, rfl⟩
      | cons c cs' =>
        obtain ⟨d, st1, ds', h1, h2, rfl⟩ := digestListS_cons_inv h
        obtain ⟨a1, b1⟩ := ihS _ _ _ _ h1 m (hall c (List.mem_cons_self _ _))
        obtain ⟨a2, b2⟩ := ihL _ _ _ _ h2 m (fun c' hc' => hall c' (List.mem_cons_of_mem _ hc'))
        exact ⟨a2.trans a1, b2.trans b1⟩

/-! ## Lexicographic sorting lemmas -/

theorem charListLeb_total : ∀ as bs : List Char,
    charListLeb as bs = true ∨ charListLeb bs as = true
  | [], bs => by cases bs <;> simp [charListLeb]
  | _ :: _, [] => by simp [charListLeb]
  | a :: as, b :: bs => by
    simp only [charListLeb]
    rcases Nat.lt_trichotomy a.toNat b.toNat with h | h | h
    · left
      simp [h]
    · have h1 : ¬ a.toNat < b.toNat := by omega
      have h2 : ¬ b.toNat < a.toNat := by omega
      simpa [h1, h2] using charListLeb_total as bs
    · right
      simp [h]

theorem charListLeb_trans : ∀ as bs cs : List Char,
    charListLeb as bs = true → charListLeb bs cs = true → charListLeb as cs = true
  | [], _, _, _, _ => by simp [charListLeb]
  | _ :: _, [], _, h1, _ => by simp [charListLeb] at h1
  | _ :: _, _ :: _, [], _, h2 => by simp [charListLeb] at h2
  | a :: as, b :: bs, c :: cs, h1, h2 => by
    simp only [charListLeb] at h1 h2 ⊢
    by_cases hab : a.toNat < b.toNat <;> by_cases hbc : b.toNat < c.toNat
    · simp [show a.toNat < c.toNat from lt_trans hab hbc]
    · rw [if_neg hbc] at h2
      by_cases hcb : c.toNat < b.toNat
      · rw [if_pos hcb] at h2
        exact absurd h2 (by simp)
      · rw [if_neg hcb] at h2
        simp [show a.toNat < c.toNat by omega]
    · rw [if_neg hab] at h1
      by_cases hba : b.toNat < a.toNat
      · rw [if_pos hba] at h1
        exact absurd h1 (by simp)
      · rw [if_neg hba] at h1
        simp [show a.toNat < c.toNat by omega]
    · rw [if_neg hab] at h1
      rw [if_neg hbc] at h2
      by_cases hba : b.toNat < a.toNat
      · rw [if_pos hba] at h1
        exact absurd h1 (by simp)
      by_cases hcb : c.toNat < b.toNat
      · rw [if_pos hcb] at h2
        exact absurd h2 (by simp)
      rw [if_neg hba] at h1
      rw [if_neg hcb] at h2
      rw [if_neg (show ¬ a.toNat < c.toNat by omega),
        if_neg (show ¬ c.toNat < a.toNat by omega)]
      exact charListLeb_trans as bs cs h1 h2

theorem strLe_total (a b : String) : strLe a b ∨ strLe b a :=
  charListLeb_total a.data b.data

theorem strLe_trans {a b c : String} (h1 : strLe a b) (h2 : strLe b c) : strLe a c :=
  charListLeb_trans a.data b.data c.data h1 h2

theorem mem_insertStr {z x : String} :
    ∀ {l : List String}, z ∈ insertStr x l → z = x ∨ z ∈ l
  | [], h => by
    simp only [insertStr, List.mem_singleton] at h
    exact Or.inl h
  | y :: ys, h => by
    by_cases hxy : strLeb x y = true
    · rw [insertStr, if_pos hxy] at h
      exact List.mem_cons.mp h
    · rw [insertStr, if_neg hxy] at h
      rcases List.mem_cons.mp h with rfl | hm
      · exact Or.inr (List.mem_cons_self _ _)
      · rcases mem_insertStr hm with rfl | hm'
        · exact Or.inl rfl
        · exact Or.inr (List.mem_cons_of_mem _ hm')

theorem pairwise_insertStr {x : String} :
    ∀ {l : List String}, List.Pairwise strLe l → List.Pairwise strLe (insertStr x l)
  | [], _ => by simp [insertStr]
  | y :: ys, hp => by
    obtain ⟨hy, hys⟩ := List.pairwise_cons.mp hp
    by_cases hxy : strLeb x y = true
    · rw [insertStr, if_pos hxy]
      refine List.pairwise_cons.mpr ⟨?_, hp⟩
      intro z hz
      rcases List.mem_cons.mp hz with rfl | hm
      · exact hxy
      · exact strLe_trans hxy (hy z hm)
    · rw [insertStr, if_neg hxy]
      refine List.pairwise_cons.mpr ⟨?_, pairwise_insertStr hys⟩
      intro z hz
      rcases mem_insertStr hz with rfl | hm
      · exact (strLe_total z y).resolve_left hxy
      · exact hy z hm

/-- The constructor's `list.sort` leaves the child lists sorted in the
code-point-lexicographic order. -/
theorem pairwise_sortStrings (l : List String) : List.Pairwise strLe (sortStrings l) := by
  induction l with
  | nil => simp [sortStrings]
  | cons x xs ih => simpa [sortStrings] using pairwise_insertStr ih

/-! ## Claim theorems -/

/-- C1: For every directory node, `digest()` computes the directory's
digest as a left fold over the digests of its children, `sub_dirs`
first and then `files` — each list sorted lexicographically by the full
path joined by the constructor — starting from the empty string as the
seed accumulator, each step replacing the accumulator with the SHA-256
hex digest of the UTF-8 bytes of the concatenation of the accumulator
and the next child's hex digest; the memoized digest (the entry stored
for `nm` in the resulting state) equals this chained value. -/
theorem c1_directory_digest_chain_fold
    (tree : List (String × TreeNode)) (fs : String → Option (List Nat))
    (fuel : Nat) (nm : String) (st : DigestSt) (n : TreeNode)
    (ds : List String) (st1 : DigestSt)
    (hn : alookup nm tree = some n) (hd : n.is_dir = true)
    (hm : alookup nm st.memo = none)
    (hc : digestListS tree fs fuel (n.sub_dirs ++ n.files) st = some (ds, st1))
    (nm0 : String) (sds fls : List String) :
    digestS tree fs (fuel + 1) nm st =
      some (List.foldl (fun a b => sha256hex (strBytes (a ++ b))) "" ds,
        ⟨(nm, List.foldl (fun a b => sha256hex (strBytes (a ++ b))) "" ds) :: st1.memo,
         nm :: st1.folds⟩) ∧
    List.Pairwise strLe (mkTreeNode nm0 sds fls true).sub_dirs ∧
    List.Pairwise strLe (mkTreeNode nm0 sds fls true).files := by
  exact ⟨digestS_dir_miss hn hd hm hc, pairwise_sortStrings _, pairwise_sortStrings _⟩

theorem c1_witness :
    digestS [("r", mkTreeNode "r" [] [] true)] (fun _ => none) 2 "r" ⟨[], []⟩ =
      some (List.foldl (fun a b => sha256hex (strBytes (a ++ b))) "" [],
        ⟨[("r", List.foldl (fun a b => sha256hex (strBytes (a ++ b))) "" [])], ["r"]⟩) ∧
    List.Pairwise strLe (mkTreeNode "p" ["b", "a"] ["d", "c"] true).sub_dirs ∧
    List.Pairwise strLe (mkTreeNode "p" ["b", "a"] ["d", "c"] true).files :=
  c1_directory_digest_chain_fold [("r", mkTreeNode "r" [] [] true)] (fun _ => none)
    1 "r" ⟨[], []⟩ (mkTreeNode "r" [] [] true) [] ⟨[], []⟩
    (by rfl) (by rfl) (by rfl) (by rfl) "p" ["b", "a"] ["d", "c"]

/-- C3: two directory nodes whose sorted child lists resolve to
pointwise-equal digest sequences (`ds` for both) receive the same
digest from `digest()`, independently of the directories' own
filesystem path strings — the keys `nm1`, `nm2`, the node names and the
two registries are entirely unconstrained. -/
theorem c3_structural_equality_implies_digest_equality
    (t1 t2 : List (String × TreeNode)) (fs1 fs2 : String → Option (List Nat))
    (fuel1 fuel2 : Nat) (nm1 nm2 : String) (st1 st2 : DigestSt) (n1 n2 : TreeNode)
    (ds : List String) (st1' st2' : DigestSt) (d1 d2 : String) (r1 r2 : DigestSt)
    (hn1 : alookup nm1 t1 = some n1) (hd1 : n1.is_dir = true)
    (hm1 : alookup nm1 st1.memo = none)
    (hc1 : digestListS t1 fs1 fuel1 (n1.sub_dirs ++ n1.files) st1 = some (ds, st1'))
    (e1 : digestS t1 fs1 (fuel1 + 1) nm1 st1 = some (d1, r1))
    (hn2 : alookup nm2 t2 = some n2) (hd2 : n2.is_dir = true)
    (hm2 : alookup nm2 st2.memo = none)
    (hc2 : digestListS t2 fs2 fuel2 (n2.sub_dirs ++ n2.files) st2 = some (ds, st2'))
    (e2 : digestS t2 fs2 (fuel2 + 1) nm2 st2 = some (d2, r2)) :
    d1 = d2 := by
  rw [digestS_dir_miss hn1 hd1 hm1 hc1, Option.some.injEq, Prod.mk.injEq] at e1
  rw [digestS_dir_miss hn2 hd2 hm2 hc2, Option.some.injEq, Prod.mk.injEq] at e2
  rw [← e1.1, ← e2.1]

theorem c3_witness :
    digestS [("x", mkTreeNode "x" ["s"] [] true), ("x/s", mkTreeNode "x/s" [] [] true)]
        (fun _ => none) 5 "x" ⟨[], []⟩ =
      some (sha256hex [], ⟨[("x", sha256hex []), ("x/s", "")], ["x", "x/s"]⟩) ∧
    digestS [("y", mkTreeNode "y" ["t"] [] true), ("y/t", mkTreeNode "y/t" [] [] true)]
        (fun _ => none) 5 "y" ⟨[], []⟩ =
      some (sha256hex [], ⟨[("y", sha256hex []), ("y/t", "")], ["y", "y/t"]⟩) ∧
    sha256hex [] = sha256hex [] :=
  ⟨by rfl, by rfl,
    c3_structural_equality_implies_digest_equality
      [("x", mkTreeNode "x" ["s"] [] true), ("x/s", mkTreeNode "x/s" [] [] true)]
      [("y", mkTreeNode "y" ["t"] [] true), ("y/t", mkTreeNode "y/t" [] [] true)]
      (fun _ => none) (fun _ => none) 4 4 "x" "y" ⟨[], []⟩ ⟨[], []⟩
      (mkTreeNode "x" ["s"] [] true) (mkTreeNode "y" ["t"] [] true)
      [""] ⟨[("x/s", "")], ["x/s"]⟩ ⟨[("y/t", "")], ["y/t"]⟩
      (sha256hex []) (sha256hex [])
      ⟨[("x", sha256hex []), ("x/s", "")], ["x", "x/s"]⟩
      ⟨[("y", sha256hex []), ("y/t", "")], ["y", "y/t"]⟩
      (by rfl) (by rfl) (by rfl) (by rfl) (by rfl)
      (by rfl) (by rfl) (by rfl) (by rfl) (by rfl)⟩

/-- C6: `digest()` of a directory with no subdirectories and no files
is the chain fold applied to zero children: the empty-string seed
itself, passed through zero iterations of the fold (note the seed of
`functools.reduce(..., '')` is the empty string, not `SHA256("")`). -/
theorem c6_empty_directory_digest
    (tree : List (String × TreeNode)) (fs : String → Option (List Nat))
    (fuel : Nat) (nm : String) (st : DigestSt) (n : TreeNode)
    (hn : alookup nm tree = some n) (hd : n.is_dir = true)
    (hs : n.sub_dirs = []) (hf : n.files = [])
    (hm : alookup nm st.memo = none) :
    digestS tree fs (fuel + 2) nm st = some ("", ⟨(nm, "") :: st.memo, nm :: st.folds⟩) ∧
    ("" : String) = List.foldl chainStep "" [] := by
  have hc : digestListS tree fs (fuel + 1) (n.sub_dirs ++ n.files) st = some ([], st) := by
    rw [hs, hf]
    simp [digestListS]
  exact ⟨digestS_dir_miss hn hd hm hc, rfl⟩

theorem c6_witness :
    digestS [("e", mkTreeNode "e" [] [] true)] (fun _ => none) 2 "e" ⟨[], []⟩ =
      some ("", ⟨[("e", "")], ["e"]⟩) ∧
    ("" : String) = List.foldl chainStep "" [] :=
  c6_empty_directory_digest [("e", mkTreeNode "e" [] [] true)] (fun _ => none)
    0 "e" ⟨[], []⟩ (mkTreeNode "e" [] [] true) (by rfl) (by rfl) (by rfl) (by rfl) (by rfl)

/-- C4 (amended): serialized `digest()` calls — calls that each
complete before the next begins, the only kind the program itself
performs, since the aggregation phase runs on one thread — return the
same value on every call and perform the underlying resolution exactly
once.  On an acyclic registry (every registry built by the top-down
walk is acyclic; a cyclic one never returns from `digest()`), a
successful `digest()` call is idempotent: calling again returns the
same value and the identical state, performing no further chain fold;
the fold counter of the node grows by exactly one when the call
resolves an unresolved directory (and by zero otherwise); and a call on
an already-memoized directory returns the cached value with the state
untouched.  The original claim's concurrent half is false on the code —
`TreeNode.digest` has no lock — as the concurrent-race counterexample
below shows. -/
theorem c4_digest_idempotent_resolves_once
    (tree : List (String × TreeNode)) (fs : String → Option (List Nat))
    (rank : String → Nat) (fuel : Nat) (nm : String) (st : DigestSt)
    (d : String) (st' : DigestSt)
    (hr : TreeAcyclic rank tree)
    (h : digestS tree fs fuel nm st = some (d, st')) :
    digestS tree fs fuel nm st' = some (d, st') ∧
    st'.folds.count nm = st.folds.count nm +
      (if alookup nm st.memo = none ∧ (alookup nm st'.memo).isSome = true then 1 else 0) ∧
    (∀ n v, alookup nm tree = some n → n.is_dir = true →
      alookup nm st.memo = some v → d = v ∧ st' = st) := by
  cases fuel with
  | zero => simp [digestS] at h
  | succ fuel =>
    obtain ⟨n, hn, hcase⟩ := digestS_succ_inv h
    rcases hcase with ⟨hd, ⟨hm, hstst⟩ | ⟨hm, ds, st1, hc, hdd, rfl⟩⟩ | ⟨hd, hg, hstst⟩
    · refine ⟨by rw [hstst]; rw [hstst] at h; exact h, ?_, ?_⟩
      · rw [hstst, hm]
        simp
      · intro n' v _ _ hv
        exact ⟨Option.some.inj (hm.symm.trans hv), hstst⟩
    · refine ⟨digestS_dir_hit hn hd alookup_cons_self, ?_, ?_⟩
      · have hch : ∀ c ∈ n.sub_dirs ++ n.files, rank c < rank nm :=
          fun c hcm => hr (nm, n) (alookup_mem hn) c hcm
        have hframe := ((digest_rank_frame tree fs rank hr fuel).2 _ _ _ _ hc nm hch).1
        show (nm :: st1.folds).count nm = st.folds.count nm + _
        rw [List.count_cons_self, hframe,
          if_pos ⟨hm, by rw [show alookup nm ((nm, d) :: st1.memo) = some d from
            alookup_cons_self]; rfl⟩]
      · intro n' v _ _ hv
        rw [hm] at hv
        cases hv
    · refine ⟨by rw [hstst]; rw [hstst] at h; exact h, ?_, ?_⟩
      · rw [hstst]
        cases hmm : alookup nm st.memo with
        | none => simp [hmm]
        | some v => simp [hmm]
      · intro n' v hn' hd' _
        obtain rfl : n = n' := Option.some.inj (hn.symm.trans hn')
        rw [hd] at hd'
        cases hd'

theorem c4_witness :
    digestS [("r", mkTreeNode "r" [] [] true)] (fun _ => none) 2 "r" ⟨[("r", "")], ["r"]⟩ =
      some ("", ⟨[("r", "")], ["r"]⟩) ∧
    (["r"] : List String).count "r" = ([] : List String).count "r" +
      (if alookup "r" (⟨([] : List (String × String)), ([] : List String)⟩ : DigestSt).memo = none ∧
          (alookup "r" (⟨[("r", "")], ["r"]⟩ : DigestSt).memo).isSome = true then 1 else 0) :=
  ⟨(c4_digest_idempotent_resolves_once [("r", mkTreeNode "r" [] [] true)] (fun _ => none)
      (fun _ => 0) 2 "r" ⟨[], []⟩ "" ⟨[("r", "")], ["r"]⟩
      (by
        intro p hp c hcm
        rcases List.mem_singleton.mp hp with rfl
        simp [mkTreeNode, sortStrings] at hcm)
      (by rfl)).1,
   (c4_digest_idempotent_resolves_once [("r", mkTreeNode "r" [] [] true)] (fun _ => none)
      (fun _ => 0) 2 "r" ⟨[], []⟩ "" ⟨[("r", "")], ["r"]⟩
      (by
        intro p hp c hcm
        rcases List.mem_singleton.mp hp with rfl
        simp [mkTreeNode, sortStrings] at hcm)
      (by rfl)).2.1⟩

/-! ### The unsynchronized first-call race of `TreeNode.digest`

`TreeNode.digest` (file-db.py lines 110-124) takes no lock.  Under
concurrent first calls on the same unresolved directory, the relevant
atomic points of the method body are the future's done-flag read and
its resolution:

  * `not self._digest.done()` (line 111) — an atomic read of the
    future's state;
  * the chain fold (lines 112-119) followed by
    `self._digest.set_result(digest)` (line 121) — `set_result` is
    atomic and raises `InvalidStateError` when the future is already
    resolved (the semantics of `concurrent.futures.Future`); the fold
    itself is pure, so every thread computes the same value `v`
    (digest determinism is the content of C1/C3);
  * `return self._digest.result()` (line 124).

The model interleaves two threads over these points. -/

/-- One thread's position inside `TreeNode.digest`: about to run the
`done()` check; past a false `done()` check and about to fold and call
`set_result`; or finished — `ret (some d)` returned the digest `d`,
`ret none` raised `InvalidStateError` out of `set_result`. -/
inductive DigestRacePhase where
  | check
  | fold
  | ret (r : Option String)
deriving DecidableEq, Repr

/-- The shared node plus the two threads: `future` is the node's
memoizing `_digest` future (`none` = not yet resolved), `folds` counts
executed chain folds, `t1`/`t2` are the thread positions. -/
structure DigestRaceSt where
  future : Option String
  folds : Nat
  t1 : DigestRacePhase
  t2 : DigestRacePhase
deriving DecidableEq, Repr

/-- One atomic step of one thread running `TreeNode.digest` on a
directory whose pure fold value is `v`: the `done()` check routes to
`result()` (resolved) or to the fold (unresolved); the fold step
always executes the chain fold and then `set_result`, which stores the
result on an unresolved future and raises `InvalidStateError` on a
resolved one; a finished thread stutters. -/
def digestRaceStep (v : String) (fut : Option String) (folds : Nat) :
    DigestRacePhase → Option String × Nat × DigestRacePhase
  | .check =>
    match fut with
    | some d => (fut, folds, .ret (some d))
    | none => (fut, folds, .fold)
  | .fold =>
    match fut with
    | some _ => (fut, folds + 1, .ret none)
    | none => (some v, folds + 1, .ret (some v))
  | .ret r => (fut, folds, .ret r)

/-- Run a schedule (`true` = thread 1 moves, `false` = thread 2
moves) over the shared state. -/
def digestRaceRun (v : String) : List Bool → DigestRaceSt → DigestRaceSt
  | [], st => st
  | b :: rest, st =>
    if b then
      let (f, k, p) := digestRaceStep v st.future st.folds st.t1
      digestRaceRun v rest ⟨f, k, p, st.t2⟩
    else
      let (f, k, p) := digestRaceStep v st.future st.folds st.t2
      digestRaceRun v rest ⟨f, k, st.t1, p⟩

/-- C4 counterexample: the original claim — same value on every call
and resolution exactly once, *including concurrently* — is false on
the code.  With both threads first-calling `digest()` on the same
unresolved directory, the schedule in which both pass the `done()`
check before either resolves (`[t1 check, t2 check, t1 fold,
t2 fold]`) executes the chain fold twice, and the second thread's
`set_result` raises `InvalidStateError`, so that call raises instead
of returning the value.  A serialized schedule of the same two calls
folds exactly once and returns the same value from both. -/
theorem c4_concurrent_race_counterexample :
    (digestRaceRun (chainFold []) [true, false, true, false]
        ⟨none, 0, .check, .check⟩).folds = 2 ∧
    (digestRaceRun (chainFold []) [true, false, true, false]
        ⟨none, 0, .check, .check⟩).t1 = .ret (some (chainFold [])) ∧
    (digestRaceRun (chainFold []) [true, false, true, false]
        ⟨none, 0, .check, .check⟩).t2 = .ret none ∧
    (digestRaceRun (chainFold []) [true, true, false, false]
        ⟨none, 0, .check, .check⟩).folds = 1 ∧
    (digestRaceRun (chainFold []) [true, true, false, false]
        ⟨none, 0, .check, .check⟩).t1 = .ret (some (chainFold [])) ∧
    (digestRaceRun (chainFold []) [true, true, false, false]
        ⟨none, 0, .check, .check⟩).t2 = .ret (some (chainFold [])) := by
  decide

/-- C5: for directories `a`, `b` with `a` non-empty, `compare(a, b)`
equals `|paths(a) ∩ paths(b)| / |paths(a)|`; the result lies in
`[0, 1]`; `compare(a, a) = 1.0`; and the result is `1.0` whenever `a`'s
immediate children are a subset of `b`'s. -/
theorem c5_compare_containment_ratio (a b : DirectoryNode) (h : a.paths.Nonempty) :
    DirectoryNode.compare a b =
      some (((a.paths ∩ b.paths).card : ℚ) / (a.paths.card : ℚ)) ∧
    (∀ r, DirectoryNode.compare a b = some r → 0 ≤ r ∧ r ≤ 1) ∧
    DirectoryNode.compare a a = some 1 ∧
    (a.paths ⊆ b.paths → DirectoryNode.compare a b = some 1) := by
  have hpos : 0 < a.paths.card := Finset.card_pos.mpr h
  have hne : a.paths.card ≠ 0 := Nat.pos_iff_ne_zero.mp hpos
  have hq : (0 : ℚ) < (a.paths.card : ℚ) := by exact_mod_cast hpos
  refine ⟨?_, ?_, ?_, ?_⟩
  · simp [DirectoryNode.compare, pyDiv, hne]
  · intro r hr
    simp only [DirectoryNode.compare, pyDiv, hne, if_false, ite_false,
      Option.some.injEq] at hr
    rw [← hr]
    constructor
    · exact div_nonneg (by positivity) (by positivity)
    · rw [div_le_one hq]
      exact_mod_cast Finset.card_le_card Finset.inter_subset_left
  · simp only [DirectoryNode.compare, pyDiv, hne, ite_false, Finset.inter_self]
    exact congrArg some (div_self (ne_of_gt hq))
  · intro hsub
    simp only [DirectoryNode.compare, pyDiv, hne, ite_false, Finset.inter_eq_left.mpr hsub]
    exact congrArg some (div_self (ne_of_gt hq))

theorem c5_witness :
    DirectoryNode.compare ⟨"a", {"x"}⟩ ⟨"b", {"x", "y"}⟩ = some 1 ∧
    DirectoryNode.compare ⟨"a", {"x"}⟩ ⟨"a", {"x"}⟩ = some 1 :=
  ⟨(c5_compare_containment_ratio ⟨"a", {"x"}⟩ ⟨"b", {"x", "y"}⟩
      ⟨"x", Finset.mem_singleton_self "x"⟩).2.2.2
      (by
        intro p hp
        rw [Finset.mem_singleton] at hp
        simp [hp]),
   (c5_compare_containment_ratio ⟨"a", {"x"}⟩ ⟨"a", {"x"}⟩
      ⟨"x", Finset.mem_singleton_self "x"⟩).2.2.1⟩

/-- C10: `compare(a, b)` raises an (unguarded) `ZeroDivisionError`
(modelled as `none`, produced by the bare division `pyDiv`) exactly
when `a`'s immediate-child path set is empty — there is no emptiness
guard and no dedicated error type in the source, and `compare` raises
in no other case; a freshly constructed directory node has an empty
path set until children are added. -/
theorem c10_compare_empty_division_by_zero :
    (∀ a b : DirectoryNode, DirectoryNode.compare a b = none ↔ a.paths = ∅) ∧
    (∀ p d, mkDirectoryNode (some p) = some d → d.paths = ∅) := by
  constructor
  · intro a b
    constructor
    · intro h
      by_contra hne
      have hpos : a.paths.card ≠ 0 := by
        simpa [Finset.card_eq_zero] using hne
      simp [DirectoryNode.compare, pyDiv, hpos] at h
    · intro h
      simp [DirectoryNode.compare, pyDiv, h]
  · intro p d h
    by_cases hp : p = ""
    · simp [mkDirectoryNode, hp] at h
    · simp only [mkDirectoryNode, hp, ite_false, Option.some.injEq] at h
      rw [← h]

theorem c10_witness :
    DirectoryNode.compare ⟨"a", ∅⟩ ⟨"b", ∅⟩ = none :=
  (c10_compare_empty_division_by_zero.1 ⟨"a", ∅⟩ ⟨"b", ∅⟩).mpr rfl

/-- C9 counterexample: constructing a `TreeNode` with the empty string
as its path succeeds (`TreeNode.__init__` contains no validation and
returns normally), refuting the claim that every node variant fails on
an empty path. -/
theorem c9_counterexample : (treeNodeInit "" [] [] true).isSome = true := rfl

/-- C9 (amended): `FileNode.__init__` and `DirectoryNode.__init__`
raise exactly on a missing (`None`) or empty path and succeed on every
non-empty path; `TreeNode.__init__` performs no path validation and
returns normally for every name, the empty string included. -/
theorem c9_amended_path_validation :
    (∀ p, mkFileNode p = none ↔ (p = none ∨ p = some "")) ∧
    (∀ p, mkDirectoryNode p = none ↔ (p = none ∨ p = some "")) ∧
    (∀ nm sds fls b, treeNodeInit nm sds fls b = some (mkTreeNode nm sds fls b)) := by
  refine ⟨?_, ?_, fun _ _ _ _ => rfl⟩
  · intro p
    cases p with
    | none => simp [mkFileNode]
    | some s =>
      by_cases hs : s = ""
      · simp [mkFileNode, hs]
      · simp [mkFileNode, hs]
  · intro p
    cases p with
    | none => simp [mkDirectoryNode]
    | some s =>
      by_cases hs : s = ""
      · simp [mkDirectoryNode, hs]
      · simp [mkDirectoryNode, hs]

theorem c9_witness :
    mkFileNode (some "") = none ∧ mkDirectoryNode none = none ∧
    (treeNodeInit "x" [] [] false).isSome = true :=
  ⟨(c9_amended_path_validation.1 (some "")).mpr (Or.inr rfl),
   (c9_amended_path_validation.2.1 none).mpr (Or.inl rfl),
   by rw [c9_amended_path_validation.2.2 "x" [] [] false]; rfl⟩

/-- Two leaf tasks, both resolved successfully with the same digest:
the program's central duplicate scenario. -/
def leafTasksDup : List LeafTask := [("x.txt", some (some "d1")), ("y.txt", some (some "d1"))]

/-- A single leaf task that resolved with an error. -/
def leafTasksFail : List LeafTask := [("x.txt", some none)]

/-- Two leaf tasks resolved successfully with distinct digests. -/
def leafTasksOk : List LeafTask := [("x.txt", some (some "d1")), ("y.txt", some (some "d2"))]

/-- C2 evidence: the barrier's exit condition
`¬(len(digests) < len(futures))` does not hold once all submitted
tasks have resolved — `digests` is keyed by digest value, so two files
with equal contents leave `len(digests) = 1 < 2 = len(futures)` forever,
and a failed task (whose callback raises at `f.result()` and inserts
nothing) leaves `len(digests) = 0 < 1`; the condition does hold when
all tasks succeed with pairwise distinct digests. -/
theorem c2_barrier_stuck_on_duplicates_and_failures :
    allResolved leafTasksDup = true ∧ barrierExits leafTasksDup = false ∧
    allResolved leafTasksFail = true ∧ barrierExits leafTasksFail = false ∧
    allResolved leafTasksOk = true ∧ barrierExits leafTasksOk = true := by decide

/-- The report example registry: a root directory with two files. -/
def reportTree : List (String × TreeNode) :=
  [("r", mkTreeNode "r" [] ["a", "b"] true),
   ("r/a", mkTreeNode "r/a" [] [] false),
   ("r/b", mkTreeNode "r/b" [] [] false)]

/-- Resolved digests where the two files share one digest. -/
def reportDigestsDup : String → Option String := fun nm =>
  if nm = "r" then some "hR"
  else if nm = "r/a" then some "hF"
  else if nm = "r/b" then some "hF"
  else none

/-- The `digests` index for `reportDigestsDup`: the two files form one
two-member cluster. -/
def reportIndexDup : List (String × List TreeNode) :=
  [("hR", [mkTreeNode "r" [] ["a", "b"] true]),
   ("hF", [mkTreeNode "r/a" [] [] false, mkTreeNode "r/b" [] [] false])]

/-- Resolved digests where every node's digest is unique. -/
def reportDigestsUniq : String → Option String := fun nm =>
  if nm = "r" then some "hR"
  else if nm = "r/a" then some "hA"
  else if nm = "r/b" then some "hB"
  else none

/-- The `digests` index for `reportDigestsUniq`: singleton clusters. -/
def reportIndexUniq : List (String × List TreeNode) :=
  [("hR", [mkTreeNode "r" [] ["a", "b"] true]),
   ("hA", [mkTreeNode "r/a" [] [] false]),
   ("hB", [mkTreeNode "r/b" [] [] false])]

/-- C8 evidence: `report()` crashes (`none`) as soon as a visited
node's digest cluster has two or more members, because sorting the
cluster calls `TreeNode.__lt__`, which reads `other.path` — an
attribute `TreeNode` does not define — so `list.sort` raises
`AttributeError`; with singleton clusters only, the traversal does
proceed depth-first (`sub_dirs` then `files`) and records each cluster
as a group. -/
theorem c8_report_crashes_on_multi_member_cluster :
    reportS reportTree reportDigestsDup reportIndexDup 5 "r" [] = none ∧
    reportS reportTree reportDigestsUniq reportIndexUniq 5 "r" [] =
      some [[mkTreeNode "r" [] ["a", "b"] true],
            [mkTreeNode "r/a" [] [] false],
            [mkTreeNode "r/b" [] [] false]] ∧
    sortNodes [mkTreeNode "r/a" [] [] false, mkTreeNode "r/b" [] [] false] = none ∧
    sortNodes [mkTreeNode "r/a" [] [] false] = some [mkTreeNode "r/a" [] [] false] := by
  decide

/-- The file system for the order-sensitivity example: `r/a` holds the
byte `a`, `r/b` holds the byte `b`. -/
def c7fs : String → Option (List Nat) := fun p =>
  if p = "r/a" then some [97] else if p = "r/b" then some [98] else none

/-- Root directory with the two files in sorted order. -/
def c7treeSorted : List (String × TreeNode) :=
  [("r", mkTreeNode "r" [] ["a", "b"] true),
   ("r/a", mkTreeNode "r/a" [] [] false),
   ("r/b", mkTreeNode "r/b" [] [] false)]

/-- The same root with its `files` list reversed (bypassing the
sorting constructor), so the chain fold consumes the children in the
opposite order. -/
def c7treeReversed : List (String × TreeNode) :=
  [("r", ⟨"r", true, [], ["r/b", "r/a"]⟩),
   ("r/a", mkTreeNode "r/a" [] [] false),
   ("r/b", mkTreeNode "r/b" [] [] false)]

set_option maxRecDepth 1000000 in
/-- C7: the chain fold is order-sensitive.  A directory whose sorted
child-digest sequence has two distinct elements (second conjunct)
receives a different digest when the children are folded in reversed
order (first conjunct): the fold is not commutative in the order of
its inputs.  Stated and proved at an explicit instance, computed with
the real SHA-256; the universally quantified version over all digest
pairs is equivalent to the absence of specific SHA-256 chain
collisions. -/
theorem c7_chain_fold_order_sensitive :
    (digestS c7treeSorted c7fs 5 "r" ⟨[], []⟩).map Prod.fst ≠
      (digestS c7treeReversed c7fs 5 "r" ⟨[], []⟩).map Prod.fst ∧
    (digestS c7treeSorted c7fs 5 "r/a" ⟨[], []⟩).map Prod.fst ≠
      (digestS c7treeSorted c7fs 5 "r/b" ⟨[], []⟩).map Prod.fst := by
  decide
